import Mathlib

/-!
Shallow embedding of the discovery core of tap-db2
(`src/tap_db2/discovery/__init__.py` and `src/tap_db2/discovery/schemas.py`).

Raw catalog rows (the results of the three metadata queries) are passed in as
lists, replacing the cursor iterators of the catalog query layer.  Python
integers become `Int`, the numeric JSON-schema fields (minimum, maximum,
multipleOf) become `ℚ`, Python `None`-able attributes become `Option`, and the
`AttributeError` raised by `_create_column_metadata` (which reads the
nonexistent attribute `column_type` of `Column`) is modelled by `Except`.
-/

namespace TapDb2

abbrev TableId := String × String

/-- The `Table` namedtuple of `discovery/__init__.py`. -/
structure Table where
  table_schema : String
  table_name : String
  table_type : String
deriving DecidableEq, Repr

/-- The `Column` namedtuple of `discovery/__init__.py`.  Its fields are exactly
`table_schema, table_name, column_name, data_type, character_maximum_length,
numeric_precision, numeric_scale`; there is no field named `column_type`. -/
structure Column where
  table_schema : String
  table_name : String
  column_name : String
  data_type : String
  character_maximum_length : Int
  numeric_precision : Int
  numeric_scale : Int
deriving DecidableEq, Repr

/-- One row of the primary-keys catalog query
(`table_schema, table_name, column_name, ordinal_position`). -/
structure PKRow where
  table_schema : String
  table_name : String
  column_name : String
  ordinal_position : Int
deriving DecidableEq, Repr

/-- The per-column singer `Schema` fragment: the fields that
`schemas._for_column` can set.  Unset attributes are `none`. -/
structure Schema where
  type : Option (List String) := none
  inclusion : Option String := none
  minimum : Option ℚ := none
  maximum : Option ℚ := none
  exclusiveMinimum : Option Bool := none
  exclusiveMaximum : Option Bool := none
  multipleOf : Option ℚ := none
  maxLength : Option Int := none
  format : Option String := none
  description : Option String := none
deriving DecidableEq, Repr

/-- The per-table singer `Schema` (the one built by `schemas.generate` and
updated by `_update_entry_for_table_type`); `properties` maps column names to
their fragments in insertion order. -/
structure TableSchema where
  type : Option String := none
  properties : List (String × Schema) := []
  inclusion : Option String := none
  description : Option String := none
deriving DecidableEq, Repr

/-- `schemas.BYTES_FOR_INTEGER_TYPE`. -/
def BYTES_FOR_INTEGER_TYPE : List (String × Nat) :=
  [("smallint", 2), ("integer", 4), ("bigint", 8)]

/-- `schemas.FLOAT_TYPES`. -/
def FLOAT_TYPES : List String := ["float", "decfloat"]

/-- `schemas.DECIMAL_TYPES`. -/
def DECIMAL_TYPES : List String := ["decimal", "numeric"]

/-- `schemas.STRING_TYPES`. -/
def STRING_TYPES : List String := ["char", "varchar"]

/-- `schemas.DATETIME_TYPES`. -/
def DATETIME_TYPES : List String := ["date", "timestmp", "time"]

/-- Python `str.lower()`, modelled as per-character lowering of the string's
characters. -/
def lower (s : String) : String := ⟨s.data.map Char.toLower⟩

/-- The primary-key membership test of `schemas._for_column`:
`col.column_name.lower() in [x.lower() for x in pk_columns]`. -/
def pk_match (col : Column) (pk_columns : List String) : Bool :=
  (pk_columns.map lower).contains (lower col.column_name)

/-- `schemas._for_column`. -/
def for_column (col : Column) (pk_columns : List String) : Schema :=
  let data_type := lower col.data_type
  let inclusion := if pk_match col pk_columns then "automatic" else "available"
  match List.lookup data_type BYTES_FOR_INTEGER_TYPE with
  | some bytes =>
    let bits := bytes * 8
    { inclusion := some inclusion,
      type := some ["null", "integer"],
      minimum := some (0 - (2 : ℚ) ^ (bits - 1)),
      maximum := some ((2 : ℚ) ^ (bits - 1) - 1) }
  | none =>
    if FLOAT_TYPES.contains data_type then
      { inclusion := some inclusion, type := some ["null", "number"] }
    else if DECIMAL_TYPES.contains data_type then
      let result : Schema :=
        if col.numeric_scale = 0 then
          { inclusion := some inclusion, type := some ["null", "integer"] }
        else
          { inclusion := some inclusion, type := some ["null", "number"],
            multipleOf := some ((10 : ℚ) ^ (0 - col.numeric_scale)) }
      { result with
        exclusiveMaximum := some true,
        maximum := some ((10 : ℚ) ^ (col.numeric_precision - col.numeric_scale)),
        exclusiveMinimum := some true,
        minimum := some (-(10 : ℚ) ^ (col.numeric_precision - col.numeric_scale)) }
    else if STRING_TYPES.contains data_type then
      { inclusion := some inclusion, type := some ["null", "string"],
        maxLength :=
          if col.character_maximum_length > 0 then some col.character_maximum_length
          else none }
    else if DATETIME_TYPES.contains data_type then
      { inclusion := some inclusion, type := some ["null", "string"],
        format := some "date-time" }
    else
      { type := none, inclusion := some "unsupported",
        description := some ("Unsupported data type " ++ data_type) }

/-- `schemas.generate`. -/
def generate (columns : List Column) (pk_columns : List String) : TableSchema :=
  { type := some "object",
    properties := columns.map (fun c => (c.column_name, for_column c pk_columns)) }

/-- `_table_id(table)` applied to a column row (the key function that
`discover` passes to `groupby`). -/
def tableId (c : Column) : TableId := (c.table_schema, c.table_name)

/-- The (schema, table) key of a primary-key row. -/
def rowId (r : PKRow) : TableId := (r.table_schema, r.table_name)

/-- `_find_tables` minus the query: builds the `{_table_id(t): t}` dict from
the raw table rows, modelled as an insertion-ordered association list. -/
def find_tables (rows : List Table) : List (TableId × Table) :=
  rows.map (fun t => ((t.table_schema, t.table_name), t))

/-- `_find_columns` minus the query: keeps the columns whose (schema, table)
key is a key of the tables dict. -/
def find_columns (rows : List Column) (tables : List (TableId × Table)) : List Column :=
  rows.filter (fun c => (List.lookup (c.table_schema, c.table_name) tables).isSome)

/-- The dict mutation of `_find_primary_keys`'s loop body:
`keys[table_id] = []` when absent (a fresh key goes to the end of the dict),
then `keys[table_id].append(v)`. -/
def appendAt : List (TableId × List (Int × String)) → TableId → Int × String →
    List (TableId × List (Int × String))
  | [], k, v => [(k, [v])]
  | (k1, vs) :: rest, k, v =>
    if k1 = k then (k1, vs ++ [v]) :: rest else (k1, vs) :: appendAt rest k v

/-- Python string comparison: code-point lexicographic strict less-than on
the character lists of the two strings. -/
def charsLt : List Char → List Char → Bool
  | [], [] => false
  | [], _ :: _ => true
  | _ :: _, [] => false
  | a :: as, b :: bs => if a < b then true else if b < a then false else charsLt as bs

/-- Python `a < b` on strings. -/
def strLt (a b : String) : Prop := charsLt a.data b.data

/-- Python `a <= b` on strings. -/
def strLe (a b : String) : Prop := ¬ strLt b a

/-- `charsLt` is asymmetric. -/
theorem charsLt_asymm : ∀ a b : List Char, charsLt a b → ¬ charsLt b a := by
  intro a
  induction a with
  | nil =>
    intro b hab hba
    cases b with
    | nil => simp [charsLt] at hab
    | cons y ys => simp [charsLt] at hba
  | cons x xs ih =>
    intro b hab hba
    cases b with
    | nil => simp [charsLt] at hab
    | cons y ys =>
      simp only [charsLt] at hab hba
      by_cases h1 : x < y
      · rw [if_neg (lt_asymm h1), if_pos h1] at hba
        cases hba
      · by_cases h2 : y < x
        · rw [if_neg h1, if_pos h2] at hab
          cases hab
        · rw [if_neg h1, if_neg h2] at hab
          rw [if_neg h2, if_neg h1] at hba
          exact ih ys hab hba

/-- Two char lists neither of which is below the other are equal. -/
theorem charsLt_conn : ∀ a b : List Char, ¬ charsLt a b → ¬ charsLt b a → a = b := by
  intro a
  induction a with
  | nil =>
    intro b hab _
    cases b with
    | nil => rfl
    | cons y ys => simp [charsLt] at hab
  | cons x xs ih =>
    intro b hab hba
    cases b with
    | nil => simp [charsLt] at hba
    | cons y ys =>
      simp only [charsLt] at hab hba
      by_cases h1 : x < y
      · rw [if_pos h1] at hab
        exact absurd rfl hab
      · by_cases h2 : y < x
        · rw [if_pos h2] at hba
          exact absurd rfl hba
        · rw [if_neg h1, if_neg h2] at hab
          rw [if_neg h2, if_neg h1] at hba
          rw [le_antisymm (not_lt.mp h1) (not_lt.mp h2), ih ys hab hba]

/-- `charsLt` is transitive. -/
theorem charsLt_trans : ∀ a b c : List Char, charsLt a b → charsLt b c → charsLt a c := by
  intro a
  induction a with
  | nil =>
    intro b c hab hbc
    cases b with
    | nil => simp [charsLt] at hab
    | cons y ys =>
      cases c with
      | nil => simp [charsLt] at hbc
      | cons z zs => simp [charsLt]
  | cons x xs ih =>
    intro b c hab hbc
    cases b with
    | nil => simp [charsLt] at hab
    | cons y ys =>
      cases c with
      | nil => simp [charsLt] at hbc
      | cons z zs =>
        simp only [charsLt] at hab hbc ⊢
        by_cases h1 : x < y
        · by_cases h2 : y < z
          · rw [if_pos (lt_trans h1 h2)]
          · by_cases h3 : z < y
            · rw [if_neg h2, if_pos h3] at hbc
              cases hbc
            · rw [le_antisymm (not_lt.mp h3) (not_lt.mp h2)] at h1
              rw [if_pos h1]
        · by_cases h3 : y < x
          · rw [if_neg h1, if_pos h3] at hab
            cases hab
          · have hxy : x = y := le_antisymm (not_lt.mp h3) (not_lt.mp h1)
            subst hxy
            by_cases h2 : x < z
            · rw [if_pos h2]
            · by_cases h4 : z < x
              · rw [if_neg h2, if_pos h4] at hbc
                cases hbc
              · rw [if_neg h1, if_neg h1] at hab
                rw [if_neg h2, if_neg h4] at hbc
                rw [if_neg h2, if_neg h4]
                exact ih ys zs hab hbc

/-- `strLe` is transitive. -/
theorem strLe_trans {a b c : String} (h1 : strLe a b) (h2 : strLe b c) : strLe a c := by
  intro hca
  simp only [strLt] at hca
  by_cases hb : charsLt b.data c.data
  · exact h1 (charsLt_trans _ _ _ hb hca)
  · rw [charsLt_conn c.data b.data h2 hb] at hca
    exact h1 hca

/-- `strLe` is total. -/
theorem strLe_total (a b : String) : strLe a b ∨ strLe b a := by
  by_cases h : charsLt b.data a.data
  · exact Or.inr (charsLt_asymm _ _ h)
  · exact Or.inl h

/-- Python's lexicographic order on the `(ordinal_position, column_name)`
2-tuples that `_find_primary_keys` sorts: by ordinal position first, ties by
column name. -/
def pairLe (p q : Int × String) : Prop := p.1 < q.1 ∨ (p.1 = q.1 ∧ strLe p.2 q.2)

instance : DecidableRel pairLe := fun p q => by unfold pairLe strLe strLt; infer_instance

instance : IsTrans (Int × String) pairLe :=
  ⟨by
    intro a b c hab hbc
    rcases hab with h1 | ⟨h1, h2⟩ <;> rcases hbc with h3 | ⟨h3, h4⟩
    · exact Or.inl (lt_trans h1 h3)
    · exact Or.inl (h3 ▸ h1)
    · exact Or.inl (h1 ▸ h3)
    · exact Or.inr ⟨h1.trans h3, strLe_trans h2 h4⟩⟩

instance : IsTotal (Int × String) pairLe :=
  ⟨by
    intro a b
    rcases lt_trichotomy a.1 b.1 with h | h | h
    · exact Or.inl (Or.inl h)
    · rcases strLe_total a.2 b.2 with h2 | h2
      · exact Or.inl (Or.inr ⟨h, h2⟩)
      · exact Or.inr (Or.inr ⟨h.symm, h2⟩)
    · exact Or.inr (Or.inl h)⟩

/-- The loop body of `_find_primary_keys`: a row for an unknown table is
skipped (`continue`), otherwise its (ordinal_position, column_name) pair is
appended at the row's table key. -/
def pkStep (tables : List (TableId × Table))
    (keys : List (TableId × List (Int × String))) (r : PKRow) :
    List (TableId × List (Int × String)) :=
  if (List.lookup (rowId r) tables).isSome then
    appendAt keys (rowId r) (r.ordinal_position, r.column_name)
  else keys

/-- `_find_primary_keys` minus the query: drops rows for unknown tables,
groups the rest by table id in a dict, then sorts each value list (Python
`sorted` on the 2-tuples) and keeps only the column names. -/
def find_primary_keys (rows : List PKRow) (tables : List (TableId × Table)) :
    List (TableId × List String) :=
  let keys := rows.foldl (pkStep tables) []
  keys.map (fun kv => (kv.1, (List.insertionSort pairLe kv.2).map Prod.snd))

/-- A value stored in the singer metadata map (bool or string here). -/
inductive MetaValue where
  | boolV : Bool → MetaValue
  | strV : String → MetaValue
deriving DecidableEq, Repr

abbrev Breadcrumb := List String

/-- The flat (breadcrumb, key, value) triples that `metadata.to_list`
produces, in write order. -/
abbrev MetadataList := List (Breadcrumb × String × MetaValue)

/-- Python attribute access `col.column_type`: the `Column` namedtuple of
`discovery/__init__.py` declares no field of that name (its type field is
`data_type`), so the access raises `AttributeError`. -/
def Column.column_type (_col : Column) : Except String String :=
  Except.error "AttributeError: 'Column' object has no attribute 'column_type'"

/-- `_create_column_metadata`.  Writes the table-level selection default,
then per column the selection default and the sql-datatype tag; the latter
reads `col.column_type`, which raises (the `Except.error` path). -/
def create_column_metadata (cols : List Column) (schema : TableSchema) :
    Except String MetadataList :=
  cols.foldlM
    (fun mdata col => do
      let col_schema ←
        match List.lookup col.column_name schema.properties with
        | some s => pure s
        | none => Except.error "KeyError"
      let mdata := mdata ++
        [(["properties", col.column_name], "selected-by-default",
          MetaValue.boolV (decide (col_schema.inclusion ≠ some "unsupported")))]
      let column_type ← Column.column_type col
      pure (mdata ++
        [(["properties", col.column_name], "sql-datatype",
          MetaValue.strV (lower column_type))]))
    [([], "selected-by-default", MetaValue.boolV false)]

/-- The `CatalogEntry` fields that `discover` fills in.  `is_view` is always
assigned by `_update_entry_for_table_type` before the entry is returned. -/
structure CatalogEntry where
  database : String
  table : String
  stream : String
  metadata : MetadataList
  tap_stream_id : String
  schema : TableSchema
  key_properties : Option (List String) := none
  is_view : Bool := false
deriving DecidableEq, Repr

/-- The `known_types` dict of `_update_entry_for_table_type`. -/
def known_types : List (String × String) :=
  [("A", "Alias"), ("L", "Logical file"),
   ("M", "Materialized query table"), ("P", "Physical file")]

/-- `_update_entry_for_table_type` (returning the updated entry instead of
mutating it). -/
def update_entry_for_table_type (catalog_entry : CatalogEntry) (table_type : String) :
    CatalogEntry :=
  let catalog_entry := { catalog_entry with is_view := table_type == "V" }
  if table_type ∉ (["T", "V"] : List String) then
    let hint := (List.lookup table_type known_types).getD "Unknown"
    let err := "Unsupported table type " ++ table_type ++ " (" ++ hint ++ ")"
    { catalog_entry with
      schema := { catalog_entry.schema with
        inclusion := some "unsupported", description := some err } }
  else catalog_entry

/-- `itertools.groupby(columns, key)`: one group per maximal run of
consecutive elements with equal keys, in input order. -/
def groupby (key : Column → TableId) : List Column → List (TableId × List Column)
  | [] => []
  | c :: cs =>
    match groupby key cs with
    | [] => [(key c, [c])]
    | (k, g) :: rest =>
      if key c = k then (k, c :: g) :: rest
      else (key c, [c]) :: (k, g) :: rest

/-- `discover` minus the three catalog queries, whose raw row sequences are
passed in.  The `Except.error` paths are the Python exceptions: the
`AttributeError` of `_create_column_metadata` and the (unreachable here)
`KeyError` of `tables[table_id]`. -/
def discover (tableRows : List Table) (columnRows : List Column)
    (pkRows : List PKRow) : Except String (List CatalogEntry) := do
  let tables := find_tables tableRows
  let columns := find_columns columnRows tables
  let pks := find_primary_keys pkRows tables
  let entries ← (groupby tableId columns).foldlM
    (fun entries g => do
      let table_id := g.1
      let cols := g.2
      let pk_columns := (List.lookup table_id pks).getD []
      let schema := generate cols pk_columns
      let mdata ← create_column_metadata cols schema
      let entry : CatalogEntry :=
        { database := table_id.1,
          table := table_id.2,
          stream := table_id.2,
          metadata := mdata,
          tap_stream_id := table_id.1 ++ "-" ++ table_id.2,
          schema := schema }
      let entry :=
        match List.lookup table_id pks with
        | some ks => { entry with key_properties := some ks }
        | none => entry
      match List.lookup table_id tables with
      | some t => pure (entries ++ [update_entry_for_table_type entry t.table_type])
      | none => Except.error "KeyError")
    []
  pure entries

/-! ### Specification-side definitions -/

/-- Spec-side: the disjunction of the five type-family guards of
`for_column`; a native type is recognized when some branch other than the
final `else` handles it. -/
def recognizedType (d : String) : Bool :=
  (List.lookup d BYTES_FOR_INTEGER_TYPE).isSome || FLOAT_TYPES.contains d ||
  DECIMAL_TYPES.contains d || STRING_TYPES.contains d || DATETIME_TYPES.contains d

/-- Spec-side: the `(ordinal_position, column_name)` pairs of the
primary-key rows of table `k`, in row order. -/
def pkPairs (rows : List PKRow) (k : TableId) : List (Int × String) :=
  (rows.filter (fun r => rowId r == k)).map (fun r => (r.ordinal_position, r.column_name))

/-- Spec-side: each table's columns form a single contiguous run of the
column sequence (equivalently, `groupby` opens no table twice). -/
def contiguousByTable (columns : List Column) : Prop :=
  ((groupby tableId columns).map Prod.fst).Nodup

/-! ### Concrete inputs used by witnesses and counterexamples -/

def colID : Column := ⟨"S", "A", "ID", "smallint", 0, 5, 0⟩

def colA1 : Column := ⟨"S", "A", "C1", "smallint", 0, 0, 0⟩

def colA2 : Column := ⟨"S", "A", "C2", "varchar", 10, 0, 0⟩

def colB1 : Column := ⟨"S", "B", "D1", "decimal", 0, 10, 2⟩

def colX : Column := ⟨"S", "A", "X", "FLOOGLE", 0, 0, 0⟩

def entry0 : CatalogEntry :=
  { database := "S", table := "A", stream := "A", metadata := [],
    tap_stream_id := "S-A", schema := generate [colID] [] }

def pkRows0 : List PKRow := [⟨"S", "A", "K2", 2⟩, ⟨"S", "A", "K1", 1⟩, ⟨"X", "Y", "Z", 1⟩]

def pkTie : List PKRow := [⟨"S", "A", "B2", 1⟩, ⟨"S", "A", "B1", 1⟩]

def tblA : Table := ⟨"S", "A", "T"⟩

def tblB : Table := ⟨"S", "B", "T"⟩

/-! ### Claim theorems -/

/-- C2 (code bug): `_create_column_metadata` reads `col.column_type`, an
attribute the `Column` namedtuple does not define (its field is
`data_type`), so on any table group with a column it raises
`AttributeError` instead of attaching the lower-cased native data type as
the sql-datatype tag.  Evaluated here at a concrete single-column group. -/
theorem create_column_metadata_attribute_error :
    create_column_metadata [colID] (generate [colID] []) =
      Except.error "AttributeError: 'Column' object has no attribute 'column_type'" := rfl

/-- C3: a column whose lower-cased native type is in the integer table
(smallint 2 bytes, integer 4, bigint 8) maps to a nullable integer with
minimum `-2 ^ (8 * bytes - 1)` and maximum `2 ^ (8 * bytes - 1) - 1`, so
maximum equals `-minimum - 1`. -/
theorem for_column_integer_bounds (col : Column) (pk_columns : List String) (bytes : Nat)
    (h : List.lookup (lower col.data_type) BYTES_FOR_INTEGER_TYPE = some bytes) :
    (for_column col pk_columns).type = some ["null", "integer"]
    ∧ (for_column col pk_columns).minimum = some (-(2 : ℚ) ^ (8 * bytes - 1))
    ∧ (for_column col pk_columns).maximum = some ((2 : ℚ) ^ (8 * bytes - 1) - 1)
    ∧ (for_column col pk_columns).maximum = some (-(-(2 : ℚ) ^ (8 * bytes - 1)) - 1) := by
  have e : bytes * 8 - 1 = 8 * bytes - 1 := by rw [Nat.mul_comm]
  simp [for_column, h, e, zero_sub, neg_neg]

/-- Witness for C3 at a concrete smallint column. -/
theorem for_column_integer_bounds_witness :
    (for_column colID []).type = some ["null", "integer"]
    ∧ (for_column colID []).minimum = some (-(2 : ℚ) ^ (8 * 2 - 1))
    ∧ (for_column colID []).maximum = some ((2 : ℚ) ^ (8 * 2 - 1) - 1)
    ∧ (for_column colID []).maximum = some (-(-(2 : ℚ) ^ (8 * 2 - 1)) - 1) :=
  for_column_integer_bounds colID [] 2 (by decide)

/-- C4: a decimal or numeric column maps to a nullable integer when its
scale is 0 and otherwise to a nullable number with
`multipleOf = 10 ^ (-scale)`; in both cases it gets exclusive bounds
`maximum = 10 ^ (precision - scale)` and `minimum = -10 ^ (precision - scale)`. -/
theorem for_column_decimal_spec (col : Column) (pk_columns : List String)
    (h : DECIMAL_TYPES.contains (lower col.data_type) = true) :
    (col.numeric_scale = 0 → (for_column col pk_columns).type = some ["null", "integer"])
    ∧ (col.numeric_scale ≠ 0 →
        (for_column col pk_columns).type = some ["null", "number"]
        ∧ (for_column col pk_columns).multipleOf = some ((10 : ℚ) ^ (-col.numeric_scale)))
    ∧ (for_column col pk_columns).exclusiveMaximum = some true
    ∧ (for_column col pk_columns).maximum =
        some ((10 : ℚ) ^ (col.numeric_precision - col.numeric_scale))
    ∧ (for_column col pk_columns).exclusiveMinimum = some true
    ∧ (for_column col pk_columns).minimum =
        some (-(10 : ℚ) ^ (col.numeric_precision - col.numeric_scale)) := by
  have hd : lower col.data_type = "decimal" ∨ lower col.data_type = "numeric" := by
    simpa [DECIMAL_TYPES, List.contains, List.elem_cons, beq_iff_eq] using h
  have l1d : List.lookup "decimal" BYTES_FOR_INTEGER_TYPE = none := rfl
  have l2d : FLOAT_TYPES.contains "decimal" = false := rfl
  have l3d : DECIMAL_TYPES.contains "decimal" = true := rfl
  have l1n : List.lookup "numeric" BYTES_FOR_INTEGER_TYPE = none := rfl
  have l2n : FLOAT_TYPES.contains "numeric" = false := rfl
  have l3n : DECIMAL_TYPES.contains "numeric" = true := rfl
  rcases hd with hd | hd <;>
    simp only [for_column, hd, l1d, l2d, l3d, l1n, l2n, l3n] <;>
    (by_cases hs : col.numeric_scale = 0 <;> simp [hs, zero_sub])

/-- Witness for C4 at a concrete decimal(10, 2) column. -/
theorem for_column_decimal_spec_witness :
    ((colB1.numeric_scale = 0 → (for_column colB1 []).type = some ["null", "integer"])
    ∧ (colB1.numeric_scale ≠ 0 →
        (for_column colB1 []).type = some ["null", "number"]
        ∧ (for_column colB1 []).multipleOf = some ((10 : ℚ) ^ (-colB1.numeric_scale)))
    ∧ (for_column colB1 []).exclusiveMaximum = some true
    ∧ (for_column colB1 []).maximum =
        some ((10 : ℚ) ^ (colB1.numeric_precision - colB1.numeric_scale))
    ∧ (for_column colB1 []).exclusiveMinimum = some true
    ∧ (for_column colB1 []).minimum =
        some (-(10 : ℚ) ^ (colB1.numeric_precision - colB1.numeric_scale))) :=
  for_column_decimal_spec colB1 [] (by decide)

set_option maxRecDepth 8192 in
/-- C5: `for_column` sets inclusion automatic iff the column name matches a
primary-key name case-insensitively and the native type is recognized,
available iff there is no match and the type is recognized, and unsupported
iff the type is unrecognized, regardless of primary-key membership. -/
theorem for_column_inclusion_policy (col : Column) (pk_columns : List String) :
    ((for_column col pk_columns).inclusion = some "automatic" ↔
      (pk_match col pk_columns = true ∧ recognizedType (lower col.data_type) = true))
    ∧ ((for_column col pk_columns).inclusion = some "available" ↔
      (pk_match col pk_columns = false ∧ recognizedType (lower col.data_type) = true))
    ∧ ((for_column col pk_columns).inclusion = some "unsupported" ↔
      recognizedType (lower col.data_type) = false) := by
  cases h1 : List.lookup (lower col.data_type) BYTES_FOR_INTEGER_TYPE <;>
    cases h2 : FLOAT_TYPES.contains (lower col.data_type) <;>
    cases h3 : DECIMAL_TYPES.contains (lower col.data_type) <;>
    cases h4 : STRING_TYPES.contains (lower col.data_type) <;>
    cases h5 : DATETIME_TYPES.contains (lower col.data_type) <;>
    cases h6 : pk_match col pk_columns <;>
    simp only [for_column, recognizedType, h1, h2, h3, h4, h5, h6] <;>
    (by_cases hs : col.numeric_scale = 0 <;> simp [hs])

/-- Witness for C5 at a concrete primary-key smallint column. -/
theorem for_column_inclusion_policy_witness :
    (for_column colID ["id"]).inclusion = some "automatic" :=
  (for_column_inclusion_policy colID ["id"]).1.mpr ⟨by decide, by decide⟩

/-- C6: a column with unrecognized native type maps to a fragment with
inclusion unsupported, no type set, and description "Unsupported data type "
followed by the lower-cased native type; `generate` still emits a property
for it, so discovery does not abort on such a column. -/
theorem for_column_unrecognized (col : Column) (pk_columns : List String)
    (cols : List Column) (h : recognizedType (lower col.data_type) = false)
    (hc : col ∈ cols) :
    for_column col pk_columns =
      { type := none, inclusion := some "unsupported",
        description := some ("Unsupported data type " ++ lower col.data_type) }
    ∧ (col.column_name, for_column col pk_columns) ∈ (generate cols pk_columns).properties := by
  simp only [recognizedType, Bool.or_eq_false_iff] at h
  obtain ⟨⟨⟨⟨h1, h2⟩, h3⟩, h4⟩, h5⟩ := h
  have h1' : List.lookup (lower col.data_type) BYTES_FOR_INTEGER_TYPE = none :=
    Option.not_isSome_iff_eq_none.mp (by simp [h1])
  have h2' : lower col.data_type ∉ FLOAT_TYPES := by simpa using h2
  have h3' : lower col.data_type ∉ DECIMAL_TYPES := by simpa using h3
  have h4' : lower col.data_type ∉ STRING_TYPES := by simpa using h4
  have h5' : lower col.data_type ∉ DATETIME_TYPES := by simpa using h5
  constructor
  · simp [for_column, h1', h2', h3', h4', h5']
  · simpa [generate] using
      List.mem_map_of_mem (fun c => (c.column_name, for_column c pk_columns)) hc

/-- Witness for C6 at a concrete column of native type "FLOOGLE". -/
theorem for_column_unrecognized_witness :
    for_column colX [] =
      { type := none, inclusion := some "unsupported",
        description := some ("Unsupported data type " ++ lower colX.data_type) }
    ∧ (colX.column_name, for_column colX []) ∈ (generate [colX] []).properties :=
  for_column_unrecognized colX [] [colX] (by decide) (by decide)

/-- C7: a char or varchar column maps to a nullable string, and the fragment
carries maxLength equal to character_maximum_length exactly when that length
is positive; a zero or negative length omits maxLength. -/
theorem for_column_string_maxLength (col : Column) (pk_columns : List String)
    (h : STRING_TYPES.contains (lower col.data_type) = true) :
    (for_column col pk_columns).type = some ["null", "string"]
    ∧ ((for_column col pk_columns).maxLength = some col.character_maximum_length ↔
        0 < col.character_maximum_length)
    ∧ (¬ 0 < col.character_maximum_length → (for_column col pk_columns).maxLength = none) := by
  have hd : lower col.data_type = "char" ∨ lower col.data_type = "varchar" := by
    simpa [STRING_TYPES, List.contains, List.elem_cons, beq_iff_eq] using h
  have l1c : List.lookup "char" BYTES_FOR_INTEGER_TYPE = none := rfl
  have l2c : FLOAT_TYPES.contains "char" = false := rfl
  have l3c : DECIMAL_TYPES.contains "char" = false := rfl
  have l4c : STRING_TYPES.contains "char" = true := rfl
  have l1v : List.lookup "varchar" BYTES_FOR_INTEGER_TYPE = none := rfl
  have l2v : FLOAT_TYPES.contains "varchar" = false := rfl
  have l3v : DECIMAL_TYPES.contains "varchar" = false := rfl
  have l4v : STRING_TYPES.contains "varchar" = true := rfl
  rcases hd with hd | hd <;>
    simp only [for_column, hd, l1c, l2c, l3c, l4c, l1v, l2v, l3v, l4v] <;>
    (by_cases hl : 0 < col.character_maximum_length <;> simp [hl])

/-- Witness for C7 at a concrete varchar column with positive length. -/
theorem for_column_string_maxLength_witness :
    (for_column colA2 []).type = some ["null", "string"]
    ∧ ((for_column colA2 []).maxLength = some colA2.character_maximum_length ↔
        0 < colA2.character_maximum_length)
    ∧ (¬ 0 < colA2.character_maximum_length → (for_column colA2 []).maxLength = none) :=
  for_column_string_maxLength colA2 [] (by decide)

/-- C9: `_update_entry_for_table_type` marks is_view exactly for table type
"V", leaves schema inclusion and description untouched for types "T" and
"V", and for any other type forces schema inclusion to unsupported and sets
a non-empty description naming the type code and its human-readable hint,
with "Unknown" for unrecognized codes. -/
theorem update_entry_for_table_type_spec (entry : CatalogEntry) (table_type : String) :
    ((update_entry_for_table_type entry table_type).is_view = true ↔ table_type = "V")
    ∧ (table_type = "T" ∨ table_type = "V" →
        (update_entry_for_table_type entry table_type).schema.inclusion = entry.schema.inclusion
        ∧ (update_entry_for_table_type entry table_type).schema.description =
            entry.schema.description)
    ∧ (¬(table_type = "T" ∨ table_type = "V") →
        (update_entry_for_table_type entry table_type).schema.inclusion = some "unsupported"
        ∧ (update_entry_for_table_type entry table_type).schema.description =
            some ("Unsupported table type " ++ table_type ++ " ("
              ++ (List.lookup table_type known_types).getD "Unknown" ++ ")")
        ∧ ("Unsupported table type " ++ table_type ++ " ("
              ++ (List.lookup table_type known_types).getD "Unknown" ++ ")") ≠ "") := by
  have hne : ("Unsupported table type " ++ table_type ++ " ("
      ++ (List.lookup table_type known_types).getD "Unknown" ++ ")") ≠ "" := by
    intro hc
    have hlen := congrArg String.length hc
    have h0 : 0 < "Unsupported table type ".length := by decide
    have he : ("" : String).length = 0 := rfl
    simp only [String.length_append] at hlen
    omega
  by_cases hm : table_type ∈ (["T", "V"] : List String)
  · have hTV : table_type = "T" ∨ table_type = "V" := by simpa using hm
    refine ⟨?_, fun _ => ⟨?_, ?_⟩, fun hcon => absurd hTV hcon⟩ <;>
      rcases hTV with h | h <;> simp [update_entry_for_table_type, h]
  · have hTV : ¬(table_type = "T" ∨ table_type = "V") := by simpa using hm
    refine ⟨?_, fun hcon => absurd hcon hTV, fun _ => ⟨?_, ?_, hne⟩⟩ <;>
      simp [update_entry_for_table_type, hm]

/-- Witness for C9 at a concrete entry with table type "L". -/
theorem update_entry_for_table_type_spec_witness :
    (update_entry_for_table_type entry0 "L").schema.inclusion = some "unsupported"
    ∧ (update_entry_for_table_type entry0 "L").schema.description =
        some "Unsupported table type L (Logical file)" := by
  have h := (update_entry_for_table_type_spec entry0 "L").2.2 (by decide)
  exact ⟨h.1, h.2.1⟩

/-! ### Grouping lemmas for `discover` (claim C1) -/

/-- `groupby` produces no group exactly on the empty column list. -/
theorem groupby_eq_nil_iff (key : Column → TableId) (l : List Column) :
    groupby key l = [] ↔ l = [] := by
  cases l with
  | nil => simp [groupby]
  | cons c cs =>
    simp only [groupby]
    cases h : groupby key cs with
    | nil => simp
    | cons p rest =>
      cases p with
      | mk k g => by_cases hk : key c = k <;> simp [hk]

/-- A table id heads a group of `groupby` iff some column has that id. -/
theorem mem_groupby_keys (key : Column → TableId) (l : List Column) (t : TableId) :
    t ∈ (groupby key l).map Prod.fst ↔ ∃ c ∈ l, key c = t := by
  induction l with
  | nil => simp [groupby]
  | cons c cs ih =>
    simp only [groupby]
    cases h : groupby key cs with
    | nil =>
      have hcs : cs = [] := (groupby_eq_nil_iff key cs).mp h
      subst hcs
      simp [eq_comm]
    | cons p rest =>
      cases p with
      | mk k g =>
        rw [h] at ih
        by_cases hk : key c = k
        · simp only [hk, if_pos]
          simp only [List.map_cons, List.mem_cons] at ih ⊢
          constructor
          · intro hm
            obtain ⟨x, hx, he⟩ := ih.mp hm
            exact ⟨x, Or.inr hx, he⟩
          · rintro ⟨x, hx | hx, he⟩
            · exact Or.inl (by rw [← he, hx, hk])
            · exact ih.mpr ⟨x, hx, he⟩
        · simp only [hk, if_neg, not_false_iff]
          simp only [List.map_cons, List.mem_cons] at ih ⊢
          constructor
          · rintro (he | hm)
            · exact ⟨c, Or.inl rfl, he.symm⟩
            · obtain ⟨x, hx, he⟩ := ih.mp hm
              exact ⟨x, Or.inr hx, he⟩
          · rintro ⟨x, hx | hx, he⟩
            · exact Or.inl (hx ▸ he.symm)
            · exact Or.inr (ih.mpr ⟨x, hx, he⟩)

/-- A table id occurring in a duplicate-free key list is counted exactly
once there. -/
theorem count_eq_one_of_nodup_mem {l : List TableId} {t : TableId}
    (hn : l.Nodup) (hm : t ∈ l) : l.count t = 1 := by
  induction l with
  | nil => cases hm
  | cons a as ih =>
    rw [List.count_cons]
    rcases List.mem_cons.mp hm with h | h
    · subst h
      rw [List.count_eq_zero.mpr (List.nodup_cons.mp hn).1]
      simp
    · have ha : (a == t) = false :=
        beq_eq_false_iff_ne.mpr (fun he => (List.nodup_cons.mp hn).1 (he ▸ h))
      rw [ih (List.nodup_cons.mp hn).2 h, ha]
      simp

instance (columns : List Column) : Decidable (contiguousByTable columns) :=
  inferInstanceAs (Decidable (((groupby tableId columns).map Prod.fst).Nodup))

/-- C1 (counterexample): with the non-contiguous filtered column sequence
`[colA1, colB1, colA2]` the `groupby` step of `discover` opens table
("S", "A") twice, and `discover` itself returns the metadata
`AttributeError` instead of producing exactly one entry per table. -/
theorem discover_noncontiguous_counterexample :
    (groupby tableId [colA1, colB1, colA2]).map Prod.fst =
      [("S", "A"), ("S", "B"), ("S", "A")]
    ∧ discover [tblA, tblB] [colA1, colB1, colA2] [] =
        Except.error "AttributeError: 'Column' object has no attribute 'column_type'" :=
  ⟨rfl, rfl⟩

/-- C1 (amended): when every table's columns are contiguous in the filtered
column sequence, `discover`'s grouping step opens exactly one group (one
attempted catalog entry) per table with at least one column, and none for a
table with no columns. -/
theorem groupby_one_group_per_table (columns : List Column)
    (h : contiguousByTable columns) (t : TableId) :
    ((groupby tableId columns).map Prod.fst).count t =
      (if ∃ c ∈ columns, tableId c = t then 1 else 0) := by
  by_cases hm : ∃ c ∈ columns, tableId c = t
  · rw [if_pos hm]
    exact count_eq_one_of_nodup_mem h ((mem_groupby_keys tableId columns t).mpr hm)
  · rw [if_neg hm]
    exact List.count_eq_zero.mpr (fun hc => hm ((mem_groupby_keys tableId columns t).mp hc))

/-- Witness for the amended C1 at a concrete contiguous column sequence. -/
theorem groupby_one_group_per_table_witness :
    contiguousByTable [colA1, colA2, colB1]
    ∧ ((groupby tableId [colA1, colA2, colB1]).map Prod.fst).count ("S", "A") =
        (if ∃ c ∈ [colA1, colA2, colB1], tableId c = ("S", "A") then 1 else 0) :=
  ⟨by decide, groupby_one_group_per_table [colA1, colA2, colB1] (by decide) ("S", "A")⟩

/-! ### Characterization of `find_primary_keys` (claims C8 and C10) -/

/-- Looking up the appended key returns its old value list with the new pair
at the end. -/
theorem lookup_appendAt_self (m : List (TableId × List (Int × String)))
    (k : TableId) (v : Int × String) :
    List.lookup k (appendAt m k v) = some ((List.lookup k m).getD [] ++ [v]) := by
  induction m with
  | nil => simp [appendAt]
  | cons p rest ih =>
    cases p with
    | mk k1 vs =>
      by_cases hk : k1 = k
      · subst hk
        simp [appendAt]
      · have hbeq : (k == k1) = false := beq_eq_false_iff_ne.mpr (Ne.symm hk)
        simp [appendAt, hk, List.lookup, hbeq, ih]

/-- Appending at one key leaves the lookup of any other key unchanged. -/
theorem lookup_appendAt_ne (m : List (TableId × List (Int × String)))
    (k k' : TableId) (v : Int × String) (h : k' ≠ k) :
    List.lookup k' (appendAt m k v) = List.lookup k' m := by
  induction m with
  | nil => simp [appendAt, List.lookup, beq_eq_false_iff_ne.mpr h]
  | cons p rest ih =>
    cases p with
    | mk k1 vs =>
      by_cases hk : k1 = k
      · subst hk
        simp [appendAt, List.lookup, beq_eq_false_iff_ne.mpr h]
      · by_cases hk1 : k' = k1
        · subst hk1
          simp [appendAt, hk, List.lookup, ih]
        · simp [appendAt, hk, List.lookup, beq_eq_false_iff_ne.mpr hk1, ih]

/-- Unfolding `pkPairs` over a leading row. -/
theorem pkPairs_cons (r : PKRow) (rows : List PKRow) (k : TableId) :
    pkPairs (r :: rows) k =
      if rowId r = k then (r.ordinal_position, r.column_name) :: pkPairs rows k
      else pkPairs rows k := by
  by_cases h : rowId r = k <;> simp [pkPairs, List.filter_cons, h]

/-- The grouping dict built by `_find_primary_keys`'s loop holds, at each
known table key, exactly that table's (ordinal, name) pairs in row order. -/
theorem lookup_foldl_pkStep (tables : List (TableId × Table)) (rows : List PKRow)
    (k : TableId) :
    ∀ m, List.lookup k (rows.foldl (pkStep tables) m) =
      if (List.lookup k tables).isSome then
        match List.lookup k m with
        | some vs => some (vs ++ pkPairs rows k)
        | none => if pkPairs rows k = [] then none else some (pkPairs rows k)
      else List.lookup k m := by
  induction rows with
  | nil =>
    intro m
    simp only [List.foldl_nil, pkPairs, List.filter_nil, List.map_nil]
    by_cases ht : (List.lookup k tables).isSome
    · rw [if_pos ht]
      cases hm : List.lookup k m <;> simp
    · rw [if_neg ht]
  | cons r rows ih =>
    intro m
    rw [List.foldl_cons, ih (pkStep tables m r), pkPairs_cons]
    unfold pkStep
    by_cases hr : rowId r = k
    · subst hr
      by_cases ht : (List.lookup (rowId r) tables).isSome
      · simp only [ht, if_true, if_pos, lookup_appendAt_self]
        cases hm : List.lookup (rowId r) m <;> simp [hm]
      · simp [ht]
    · by_cases ht : (List.lookup (rowId r) tables).isSome <;>
        simp [ht, hr, lookup_appendAt_ne _ _ _ _ (Ne.symm hr)]

/-- Lookup through the per-value sorting map of `find_primary_keys`. -/
theorem lookup_map_sort (m : List (TableId × List (Int × String))) (k : TableId) :
    List.lookup k (m.map (fun kv => (kv.1, (List.insertionSort pairLe kv.2).map Prod.snd))) =
      (List.lookup k m).map (fun vs => (List.insertionSort pairLe vs).map Prod.snd) := by
  induction m with
  | nil => simp
  | cons p rest ih =>
    cases p with
    | mk k1 vs =>
      by_cases h : k = k1
      · subst h
        simp [List.lookup]
      · simp [List.lookup, beq_eq_false_iff_ne.mpr h, ih]

/-- `pairLe` is ascending in the ordinal position. -/
theorem pairLe_fst_le {a b : Int × String} (h : pairLe a b) : a.1 ≤ b.1 := by
  rcases h with h | ⟨h, _⟩
  · exact le_of_lt h
  · exact le_of_eq h

/-- On an ordinal tie, `pairLe` is ascending in the column name. -/
theorem pairLe_tie {a b : Int × String} (h : pairLe a b) : a.1 = b.1 → strLe a.2 b.2 := by
  intro he
  rcases h with h | ⟨_, h2⟩
  · exact absurd (he ▸ h) (lt_irrefl b.1)
  · exact h2

/-- The lookup characterization of `find_primary_keys`: unknown or rowless
tables are absent; a known table with rows maps to the second components of
its lexicographically sorted (ordinal, name) pairs. -/
theorem find_primary_keys_lookup (rows : List PKRow) (tables : List (TableId × Table))
    (k : TableId) :
    List.lookup k (find_primary_keys rows tables) =
      if (List.lookup k tables).isSome ∧ pkPairs rows k ≠ [] then
        some ((List.insertionSort pairLe (pkPairs rows k)).map Prod.snd)
      else none := by
  unfold find_primary_keys
  rw [lookup_map_sort, lookup_foldl_pkStep tables rows k []]
  simp only [List.lookup_nil]
  by_cases ht : (List.lookup k tables).isSome
  · by_cases hp : pkPairs rows k = [] <;> simp [ht, hp]
  · simp [ht]

/-- C8: `find_primary_keys` drops rows of unknown tables, groups the
remaining rows by table key, and returns each table's key column names
sorted ascending by ordinal position, the positions discarded. -/
theorem find_primary_keys_spec (rows : List PKRow) (tables : List (TableId × Table))
    (k : TableId) :
    List.lookup k (find_primary_keys rows tables) =
      (if (List.lookup k tables).isSome ∧ pkPairs rows k ≠ [] then
        some ((List.insertionSort pairLe (pkPairs rows k)).map Prod.snd)
      else none)
    ∧ List.Pairwise (fun a b : Int × String => a.1 ≤ b.1)
        (List.insertionSort pairLe (pkPairs rows k))
    ∧ List.Perm (List.insertionSort pairLe (pkPairs rows k)) (pkPairs rows k) :=
  ⟨find_primary_keys_lookup rows tables k,
    List.Pairwise.imp pairLe_fst_le (List.sorted_insertionSort pairLe (pkPairs rows k)),
    List.perm_insertionSort pairLe (pkPairs rows k)⟩

/-- Witness for C8 at a concrete input with an unknown table row. -/
theorem find_primary_keys_spec_witness :
    List.lookup ("S", "A") (find_primary_keys pkRows0 (find_tables [tblA, tblB])) =
      (if (List.lookup ("S", "A") (find_tables [tblA, tblB])).isSome
          ∧ pkPairs pkRows0 ("S", "A") ≠ [] then
        some ((List.insertionSort pairLe (pkPairs pkRows0 ("S", "A"))).map Prod.snd)
      else none)
    ∧ List.Pairwise (fun a b : Int × String => a.1 ≤ b.1)
        (List.insertionSort pairLe (pkPairs pkRows0 ("S", "A")))
    ∧ List.Perm (List.insertionSort pairLe (pkPairs pkRows0 ("S", "A")))
        (pkPairs pkRows0 ("S", "A")) :=
  find_primary_keys_spec pkRows0 (find_tables [tblA, tblB]) ("S", "A")

/-- C10 (implicit): rows of one table sharing an ordinal position come out
ordered by column name ascending, so for a fixed input the per-table key
column order is fully deterministic, and equal inputs give equal results. -/
theorem find_primary_keys_tiebreak (rows : List PKRow) (tables : List (TableId × Table))
    (k : TableId) (l : List String)
    (h : List.lookup k (find_primary_keys rows tables) = some l) :
    l = (List.insertionSort pairLe (pkPairs rows k)).map Prod.snd
    ∧ List.Pairwise (fun a b : Int × String => a.1 = b.1 → strLe a.2 b.2)
        (List.insertionSort pairLe (pkPairs rows k))
    ∧ find_primary_keys rows tables = find_primary_keys rows tables := by
  refine ⟨?_, ?_, rfl⟩
  · have hl := find_primary_keys_lookup rows tables k
    rw [h] at hl
    by_cases hc : (List.lookup k tables).isSome ∧ pkPairs rows k ≠ []
    · rw [if_pos hc] at hl
      exact Option.some.inj hl
    · rw [if_neg hc] at hl
      cases hl
  · exact List.Pairwise.imp (fun h => pairLe_tie h) (List.sorted_insertionSort pairLe (pkPairs rows k))

/-- Witness for C10 at a concrete input with two rows tied on ordinal 1. -/
theorem find_primary_keys_tiebreak_witness :
    ["B1", "B2"] = (List.insertionSort pairLe (pkPairs pkTie ("S", "A"))).map Prod.snd
    ∧ List.Pairwise (fun a b : Int × String => a.1 = b.1 → strLe a.2 b.2)
        (List.insertionSort pairLe (pkPairs pkTie ("S", "A")))
    ∧ find_primary_keys pkTie (find_tables [tblA]) =
        find_primary_keys pkTie (find_tables [tblA]) :=
  find_primary_keys_tiebreak pkTie (find_tables [tblA]) ("S", "A") ["B1", "B2"] (by decide)

end TapDb2
